import Mathlib

/-!
Verification of the pyhtml document builder (src/pyhtml/__init__.py).

The Python module is shallowly embedded: dynamically-typed values that can
appear as attribute values or node content are modelled by small inductive
types carrying exactly the observations the code makes of them (their
`isinstance` class and their default string conversion), Python dicts are
modelled as insertion-ordered association lists, exceptions are modelled by
`Except`, and the two `lru_cache` memoized renderers are modelled by explicit
optional cache fields threaded through the state.
-/

namespace PyHtml

/-- A Python value used as an attribute value or CSS declaration value.
The code only distinguishes strings (`isinstance(value, str)`) from everything
else, and otherwise uses the value's default string conversion, so a non-string
value is modelled by that conversion. -/
inductive PValue where
  | vstr (s : String)
  | vother (conv : String)
deriving DecidableEq, Repr

/-- Python `str(value)`: a string converts to itself, any other value to its
default string conversion. -/
def PValue.pyStr : PValue → String
  | .vstr s => s
  | .vother conv => conv

/-- A Python `dict[str, Any]` (the `PROPERTIES` type alias), as an
insertion-ordered association list with unique keys. -/
abbrev Properties := List (String × PValue)

/-- Python `sep.join(parts)`. -/
def pyJoin (sep : String) : List String → String
  | [] => ""
  | [s] => s
  | s :: t :: rest => s ++ sep ++ pyJoin sep (t :: rest)

/-- Python dict assignment `d[k] = v`: replaces the value in place if the key
is present, otherwise appends the new pair. -/
def dictInsert {α : Type} : List (String × α) → String → α → List (String × α)
  | [], k, v => [(k, v)]
  | (k1, v1) :: rest, k, v =>
    if k1 = k then (k, v) :: rest else (k1, v1) :: dictInsert rest k v

/-- Python dict lookup `d[k]` / `d.get(k)` as an `Option`. -/
def dictLookup {α : Type} : List (String × α) → String → Option α
  | [], _ => none
  | (k1, v) :: rest, k => if k1 = k then some v else dictLookup rest k

/-- Python dict union `a | b`: a copy of `a` updated with every pair of `b`
in order, so values of `b` win on key collision. -/
def dictUnion {α : Type} (a b : List (String × α)) : List (String × α) :=
  b.foldl (fun acc kv => dictInsert acc kv.1 kv.2) a

/-- The quoting step of `_render_properties`: a string value is wrapped in
double quotes, any other value is embedded by its default string conversion. -/
def renderPropertyValue : PValue → String
  | .vstr s => "\"" ++ s ++ "\""
  | .vother conv => conv

/-- Embedding of `_render_properties`: renders the dict into the
space-joined list of `key=value` entries. -/
def _render_properties (properties : Properties) : String :=
  pyJoin " " (properties.map fun kv => kv.1 ++ "=" ++ renderPropertyValue kv.2)

/-- A scalar Python value stored in `UIComponent.data` (anything that is not
`None` and not a `list`): either a `str`, or a non-string value carrying its
Python type name (for the `TypeError` raised by `str.join`) and its default
string conversion. -/
inductive PyScalar where
  | pstr (s : String)
  | nonStr (tyName : String) (conv : String)
deriving DecidableEq, Repr

mutual
/-- Embedding of class `UIComponent`: the constructor stores `data`, `tag`
and `properties` verbatim. -/
inductive UIComponent where
  | mk (data : PyData) (tag : Option String) (properties : Option Properties)

/-- The dynamically-typed `data` field: `None`, a scalar, or a Python list. -/
inductive PyData where
  | none
  | scalar (v : PyScalar)
  | list (xs : List PyElem)

/-- An element of a `data` list: either a `UIComponent`, or any other value,
of which the code only observes the Python type name (in the `ValueError`
message). -/
inductive PyElem where
  | comp (c : UIComponent)
  | other (tyName : String)
end

/-- The exceptions `UIComponent.render` can raise: the `ValueError` for a
non-`UIComponent` element of a `data` list, and the `TypeError` raised by
`"".join` on a non-string scalar `data`. Both carry the offending value's
type name. -/
inductive RenderError where
  | malformed (tyName : String)
  | joinTypeError (tyName : String)
deriving DecidableEq, Repr

/-- Python `f"{self.tag}"`: `None` formats as the literal string `None`. -/
def pyTagStr : Option String → String
  | Option.none => "None"
  | some t => t

/-- The `properties` part of the rendered tag:
`_render_properties(self.properties) if self.properties else ""`
(both `None` and the empty dict are falsy). -/
def renderedPropertiesSegment : Option Properties → String
  | Option.none => ""
  | some ps => if ps.isEmpty then "" else _render_properties ps

mutual
/-- Embedding of `UIComponent.render`. -/
def render : UIComponent → Except RenderError String
  | .mk data tag properties =>
    match renderData data with
    | .error e => .error e
    | .ok body =>
      .ok ("<" ++ pyTagStr tag ++ " " ++ renderedPropertiesSegment properties
        ++ ">" ++ body ++ "</" ++ pyTagStr tag ++ ">")

/-- The `rendered_body` computation of `UIComponent.render`, up to the final
`"".join`: `None` contributes nothing, a list must contain only components
(else `ValueError`), and `"".join([self.data])` raises `TypeError` on a
non-string scalar. -/
def renderData : PyData → Except RenderError String
  | .none => .ok ""
  | .scalar (.pstr s) => .ok s
  | .scalar (.nonStr tyName _) => .error (.joinTypeError tyName)
  | .list xs => renderList xs

/-- The loop over a `data` list: raises `ValueError` at the first
non-component element, otherwise concatenates the children's renders in
order (the first failing child's exception propagates). -/
def renderList : List PyElem → Except RenderError String
  | [] => .ok ""
  | .other tyName :: _ => .error (.malformed tyName)
  | .comp c :: rest =>
    match render c with
    | .error e => .error e
    | .ok s =>
      match renderList rest with
      | .error e => .error e
      | .ok r => .ok (s ++ r)
end

/-- Embedding of the `UIApp` state (`_BaseUIApp.__init__` fields). The two
`lru_cache(maxsize=1)` memoizations of `_render_components` and
`_render_pregenerated_styles` are modelled by the two explicit cache fields:
`none` before the first call, `some result` afterwards. Note that the cache of
`_render_components` stores a `List String` — the Python function, despite its
`-> str` annotation, returns the one-element list `["".join(...)]`. -/
structure UIApp where
  _pregenerated_styles : List (String × Properties)
  _components : List UIComponent
  _default_title : String
  renderComponentsCache : Option (List String)
  renderStylesCache : Option String

/-- A freshly constructed `UIApp` (`_BaseUIApp.__init__`). -/
def UIApp.new : UIApp :=
  ⟨[], [], "Built with PyHTML!", Option.none, Option.none⟩

/-- Embedding of `UIApp.add_component`: appends to `_components`. -/
def UIApp.add_component (app : UIApp) (component : UIComponent) : UIApp :=
  ⟨app._pregenerated_styles, app._components ++ [component],
    app._default_title, app.renderComponentsCache, app.renderStylesCache⟩

/-- Embedding of `UIApp.style`: dict assignment
`self._pregenerated_styles[selector] = properties`. -/
def UIApp.style (app : UIApp) (selector : String) (properties : Properties) : UIApp :=
  ⟨dictInsert app._pregenerated_styles selector properties, app._components,
    app._default_title, app.renderComponentsCache, app.renderStylesCache⟩

/-- Embedding of `_UIAppTagsShortcutMixin._tag_shortcut`: merges the keyword
attributes with the explicit mapping (`kwargs | properties`, so `properties`
wins on collision) and registers `UIComponent(data=data, tag="span",
properties=properties)`. The `tag` argument is accepted but, as in the source,
not used: the constructed component's tag is always the literal `"span"`. -/
def UIApp._tag_shortcut (app : UIApp) (tag : String) (data : PyData)
    (properties : Option Properties) (kwargs : Properties) : UIApp :=
  let _ := tag
  let merged := match properties with
    | some p => dictUnion kwargs p
    | Option.none => kwargs
  app.add_component (UIComponent.mk data (some "span") (some merged))

/-- Embedding of `UIApp.span`. -/
def UIApp.span (app : UIApp) (data : PyData)
    (properties : Option Properties) (kwargs : Properties) : UIApp :=
  app._tag_shortcut "span" data properties kwargs

/-- Embedding of `UIApp.button`. -/
def UIApp.button (app : UIApp) (data : PyData)
    (properties : Option Properties) (kwargs : Properties) : UIApp :=
  app._tag_shortcut "button" data properties kwargs

/-- Embedding of `UIApp.div`. -/
def UIApp.div (app : UIApp) (data : PyData)
    (properties : Option Properties) (kwargs : Properties) : UIApp :=
  app._tag_shortcut "div" data properties kwargs

/-- The list comprehension `[component.render() for component in components]`:
renders left to right, the first exception aborting the whole computation. -/
def renderAllComponents : List UIComponent → Except RenderError (List String)
  | [] => .ok []
  | c :: rest =>
    match render c with
    | .error e => .error e
    | .ok s =>
      match renderAllComponents rest with
      | .error e => .error e
      | .ok ss => .ok (s :: ss)

/-- Embedding of `_BaseUIApp._render_components` with its `lru_cache`:
returns the cached value when present, otherwise computes
`["".join([component.render() for component in self._components])]` — a
one-element list, not a string — and caches it. An exception from a
component's `render` propagates and caches nothing. -/
def UIApp._render_components (app : UIApp) : Except RenderError (List String × UIApp) :=
  match app.renderComponentsCache with
  | some v => .ok (v, app)
  | Option.none =>
    match renderAllComponents app._components with
    | .error e => .error e
    | .ok ss =>
      let v := [pyJoin "" ss]
      .ok (v, ⟨app._pregenerated_styles, app._components, app._default_title,
        some v, app.renderStylesCache⟩)

/-- One selector's block in `_render_pregenerated_styles`:
`f"{selector}" + "{" + ",\n".join(style_body) + "}"` where `style_body`
holds `f"{key}: {value}"` entries. -/
def renderStyleBlock (selector : String) (properties : Properties) : String :=
  selector ++ "\x7b"
    ++ pyJoin ",\n" (properties.map fun kv => kv.1 ++ ": " ++ kv.2.pyStr)
    ++ "\x7d"

/-- Embedding of `_BaseUIApp._render_pregenerated_styles` with its
`lru_cache`: returns the cached string when present, otherwise joins the
selector blocks with newlines and caches the result. -/
def UIApp._render_pregenerated_styles (app : UIApp) : String × UIApp :=
  match app.renderStylesCache with
  | some v => (v, app)
  | Option.none =>
    let v := pyJoin "\n"
      (app._pregenerated_styles.map fun kv => renderStyleBlock kv.1 kv.2)
    (v, ⟨app._pregenerated_styles, app._components, app._default_title,
      app.renderComponentsCache, some v⟩)

/-- Python `repr` of a string that contains no quote character, no backslash
and no control character (the only case the development evaluates): the string
wrapped in single quotes. -/
def pyReprPlainStr (s : String) : String := "\x27" ++ s ++ "\x27"

/-- Python `str()` of a `list[str]`, as interpolated by an f-string: the
bracketed, comma-separated `repr`s of the elements. -/
def pyStrOfStrList (xs : List String) : String :=
  "[" ++ pyJoin ", " (xs.map pyReprPlainStr) ++ "]"

/-- Embedding of `_BaseUIApp._generate_html_content`: the f-string template
evaluates `self._default_title`, then `self._render_pregenerated_styles()`,
then `self._render_components()`; the last returns a `list`, which the
f-string converts with `str()`. Whitespace reproduces the source template. -/
def UIApp._generate_html_content (app : UIApp) : Except RenderError (String × UIApp) :=
  let sr := app._render_pregenerated_styles
  match sr.2._render_components with
  | .error e => .error e
  | .ok cr =>
    .ok ("\n<html>\n    <head>\n        <title>" ++ app._default_title
      ++ "</title>\n        <style>" ++ sr.1
      ++ "</style>\n    </head>\n    <body>\n        " ++ pyStrOfStrList cr.1
      ++ "\n    </body>\n</html>\n        ", cr.2)

/-- Whether a list element passes the `isinstance(component, UIComponent)`
check of `UIComponent.render`. -/
def PyElem.isComponent : PyElem → Bool
  | .comp _ => true
  | .other _ => false

/-- Modelled from the spec: one attribute as a `key=value` pair where a
string-typed value is wrapped in double quotes and any other value is embedded
via its default string conversion with no quoting. -/
def specAttributePair (k : String) : PValue → String
  | .vstr s => k ++ "=" ++ "\"" ++ s ++ "\""
  | .vother conv => k ++ "=" ++ conv

/-- Modelled from the spec: the attributes serialized as a space-separated
sequence of `key=value` pairs in the map's insertion order. -/
def specAttributeString : Properties → String
  | [] => ""
  | [kv] => specAttributePair kv.1 kv.2
  | kv :: kv2 :: rest => specAttributePair kv.1 kv.2 ++ " " ++ specAttributeString (kv2 :: rest)

/-- Modelled from the spec: the declarations of one style block as
`prop: value` pairs separated by a comma then a newline, no trailing
semicolons. -/
def specStyleDecls : Properties → String
  | [] => ""
  | [kv] => kv.1 ++ ": " ++ kv.2.pyStr
  | kv :: kv2 :: rest => kv.1 ++ ": " ++ kv.2.pyStr ++ ",\n" ++ specStyleDecls (kv2 :: rest)

/-- Modelled from the spec: one selector block — the selector immediately
followed by an open brace (no space), the declarations, then a close brace. -/
def specStyleBlock (selector : String) (ps : Properties) : String :=
  selector ++ "\x7b" ++ specStyleDecls ps ++ "\x7d"

/-- Modelled from the spec: the stylesheet as the selector blocks, in
insertion order, joined by newlines. -/
def specStylesheet : List (String × Properties) → String
  | [] => ""
  | [sp] => specStyleBlock sp.1 sp.2
  | sp :: sp2 :: rest => specStyleBlock sp.1 sp.2 ++ "\n" ++ specStylesheet (sp2 :: rest)

lemma specAttributePair_eq (k : String) (v : PValue) :
    k ++ "=" ++ renderPropertyValue v = specAttributePair k v := by
  cases v with
  | vstr s =>
    simp only [renderPropertyValue, specAttributePair, String.append_assoc]
  | vother conv => rfl

lemma _render_properties_eq_spec (ps : Properties) :
    _render_properties ps = specAttributeString ps := by
  induction ps with
  | nil => rfl
  | cons kv rest ih =>
    cases rest with
    | nil =>
      simp only [_render_properties, List.map_cons, List.map_nil, pyJoin,
        specAttributeString]
      exact specAttributePair_eq kv.1 kv.2
    | cons kv2 rest2 =>
      simp only [_render_properties, List.map_cons, pyJoin,
        specAttributeString] at *
      rw [ih, specAttributePair_eq kv.1 kv.2]

lemma specStyleDecls_eq (ps : Properties) :
    pyJoin ",\n" (ps.map fun kv => kv.1 ++ ": " ++ kv.2.pyStr) = specStyleDecls ps := by
  induction ps with
  | nil => rfl
  | cons kv rest ih =>
    cases rest with
    | nil => rfl
    | cons kv2 rest2 =>
      simp only [List.map_cons, pyJoin, specStyleDecls] at *
      rw [ih]

lemma renderStyleBlock_eq_spec (selector : String) (ps : Properties) :
    renderStyleBlock selector ps = specStyleBlock selector ps := by
  simp only [renderStyleBlock, specStyleBlock, specStyleDecls_eq]

lemma styles_pyJoin_eq_spec (l : List (String × Properties)) :
    pyJoin "\n" (l.map fun kv => renderStyleBlock kv.1 kv.2) = specStylesheet l := by
  induction l with
  | nil => rfl
  | cons sp rest ih =>
    cases rest with
    | nil =>
      simp only [List.map_cons, List.map_nil, pyJoin, specStylesheet,
        renderStyleBlock_eq_spec]
    | cons sp2 rest2 =>
      simp only [List.map_cons, pyJoin, specStylesheet] at *
      rw [ih, renderStyleBlock_eq_spec]

lemma dictLookup_dictInsert_self {α : Type} (d : List (String × α)) (k : String) (v : α) :
    dictLookup (dictInsert d k v) k = some v := by
  induction d with
  | nil => simp [dictInsert, dictLookup]
  | cons kv rest ih =>
    by_cases h : kv.1 = k
    · simp [dictInsert, dictLookup, h]
    · simpa [dictInsert, dictLookup, h] using ih

lemma dictLookup_dictInsert_ne {α : Type} (d : List (String × α)) (k1 k : String) (v : α)
    (h : k1 ≠ k) : dictLookup (dictInsert d k1 v) k = dictLookup d k := by
  induction d with
  | nil => simp [dictInsert, dictLookup, h]
  | cons kv rest ih =>
    simp only [dictInsert]
    by_cases h1 : kv.1 = k1
    · simp only [if_pos h1, dictLookup]
      have hkv : ¬ kv.1 = k := by rw [h1]; exact h
      rw [if_neg h, if_neg hkv]
    · simp only [if_neg h1, dictLookup, ih]

lemma dictLookup_eq_none {α : Type} (d : List (String × α)) (k : String)
    (h : k ∉ d.map Prod.fst) : dictLookup d k = none := by
  induction d with
  | nil => rfl
  | cons kv rest ih =>
    simp only [List.map_cons, List.mem_cons, not_or] at h
    have hkv : ¬ kv.1 = k := fun he => h.1 he.symm
    simp [dictLookup, hkv, ih h.2]

lemma dictUnion_cons {α : Type} (a : List (String × α)) (kv : String × α)
    (b : List (String × α)) :
    dictUnion a (kv :: b) = dictUnion (dictInsert a kv.1 kv.2) b := rfl

lemma dictUnion_lookup_left {α : Type} (a b : List (String × α)) (k : String)
    (h : dictLookup b k = none) :
    dictLookup (dictUnion a b) k = dictLookup a k := by
  induction b generalizing a with
  | nil => rfl
  | cons kv rest ih =>
    by_cases hk : kv.1 = k
    · simp [dictLookup, hk] at h
    · simp only [dictLookup, hk, if_false] at h
      rw [dictUnion_cons, ih _ h, dictLookup_dictInsert_ne _ _ _ _ hk]

lemma dictUnion_lookup_right {α : Type} (a b : List (String × α)) (k : String) (v : α)
    (hb : (b.map Prod.fst).Nodup) (h : dictLookup b k = some v) :
    dictLookup (dictUnion a b) k = some v := by
  induction b generalizing a with
  | nil => simp [dictLookup] at h
  | cons kv rest ih =>
    simp only [List.map_cons, List.nodup_cons] at hb
    by_cases hk : kv.1 = k
    · have h2 : some kv.2 = some v := by simpa [dictLookup, hk] using h
      have hrest : dictLookup rest k = none := by
        apply dictLookup_eq_none
        rw [← hk]
        exact hb.1
      rw [dictUnion_cons, dictUnion_lookup_left _ _ _ hrest, hk,
        dictLookup_dictInsert_self]
      exact h2
    · simp only [dictLookup, hk, if_false] at h
      rw [dictUnion_cons]
      exact ih _ hb.2 h

lemma dictInsert_dictInsert_same {α : Type} (d : List (String × α)) (k : String)
    (v1 v2 : α) : dictInsert (dictInsert d k v1) k v2 = dictInsert d k v2 := by
  induction d with
  | nil => simp [dictInsert]
  | cons kv rest ih =>
    by_cases h : kv.1 = k
    · simp [dictInsert, h]
    · simp [dictInsert, h, ih]

lemma renderList_error_of_exists_other (xs : List PyElem)
    (h : ∃ e ∈ xs, e.isComponent = false) : ∃ err, renderList xs = .error err := by
  induction xs with
  | nil => simp at h
  | cons e rest ih =>
    cases e with
    | other tyName => exact ⟨.malformed tyName, rfl⟩
    | comp c =>
      have hrest : ∃ e ∈ rest, e.isComponent = false := by
        obtain ⟨e, he, hf⟩ := h
        rcases List.mem_cons.mp he with h1 | h1
        · rw [h1] at hf
          simp [PyElem.isComponent] at hf
        · exact ⟨e, h1, hf⟩
      cases hc : render c with
      | error err => exact ⟨err, by simp [renderList, hc]⟩
      | ok s =>
        obtain ⟨err, herr⟩ := ih hrest
        exact ⟨err, by simp [renderList, hc, herr]⟩

lemma renderList_append_other (pre : List PyElem) (tyName : String) (rest : List PyElem)
    (h : ∀ e ∈ pre, ∃ c s, e = PyElem.comp c ∧ render c = .ok s) :
    renderList (pre ++ PyElem.other tyName :: rest) = .error (.malformed tyName) := by
  induction pre with
  | nil => rfl
  | cons e pre2 ih =>
    obtain ⟨c, s, rfl, hc⟩ := h e (List.mem_cons_self e pre2)
    have h2 := ih (fun e2 he2 => h e2 (List.mem_cons_of_mem _ he2))
    simp [renderList, hc, h2]

lemma renderList_ok_of_all_components (xs : List PyElem)
    (h : ∀ e ∈ xs, ∃ c s, e = PyElem.comp c ∧ render c = .ok s) :
    ∃ out, renderList xs = .ok out := by
  induction xs with
  | nil => exact ⟨"", rfl⟩
  | cons e rest ih =>
    obtain ⟨c, s, rfl, hc⟩ := h e (List.mem_cons_self e rest)
    obtain ⟨out, hout⟩ := ih (fun e2 he2 => h e2 (List.mem_cons_of_mem _ he2))
    exact ⟨s ++ out, by simp [renderList, hc, hout]⟩

/-- C1: the claim states that each named-tag convenience operation registers
a node with its own fixed tag name (`div` a `"div"` node, `button` a
`"button"` node). Evaluating the code shows otherwise: `_tag_shortcut`
ignores its `tag` argument and always constructs `UIComponent(...,
tag="span", ...)`, so both `div` and `button` register a `"span"` node, which
then renders as a `span` element. -/
theorem c1_named_tag_shortcut_registers_span :
    ((UIApp.new.div PyData.none Option.none [])._components
      = [UIComponent.mk PyData.none (some "span") (some [])])
    ∧ ((UIApp.new.button PyData.none Option.none [])._components
      = [UIComponent.mk PyData.none (some "span") (some [])])
    ∧ render (UIComponent.mk PyData.none (some "span") (some []))
      = .ok "<span ></span>" :=
  ⟨rfl, rfl, rfl⟩

/-- C2: the claim states that render-body returns the concatenation string of
the nodes' renders and that the body section embeds that concatenation.
Evaluating the code on a document with the single node `<span >hi</span>`
shows that `_render_components` instead returns the one-element list
`["<span >hi</span>"]` (despite its `-> str` annotation), and that the body
section of the composed document therefore embeds the Python list repr
`['<span >hi</span>']`, not the concatenation. -/
theorem c2_render_components_returns_list :
    (UIApp.new.add_component
        (UIComponent.mk (PyData.scalar (PyScalar.pstr "hi")) (some "span")
          Option.none))._render_components
      = .ok (["<span >hi</span>"],
        ⟨[], [UIComponent.mk (PyData.scalar (PyScalar.pstr "hi")) (some "span") Option.none],
          "Built with PyHTML!", some ["<span >hi</span>"], Option.none⟩)
    ∧ (UIApp.new.add_component
        (UIComponent.mk (PyData.scalar (PyScalar.pstr "hi")) (some "span")
          Option.none))._generate_html_content
      = .ok ("\n<html>\n    <head>\n        <title>Built with PyHTML!</title>\n        <style></style>\n    </head>\n    <body>\n        [\x27<span >hi</span>\x27]\n    </body>\n</html>\n        ",
        ⟨[], [UIComponent.mk (PyData.scalar (PyScalar.pstr "hi")) (some "span") Option.none],
          "Built with PyHTML!", some ["<span >hi</span>"], some ""⟩) :=
  ⟨rfl, rfl⟩

/-- C3 counterexample: the claim as stated fails twice on the code. First, a
content sequence that does contain a non-Node (`"str"`) but whose first
element is a Node with a non-string scalar fails with the `TypeError` from
`str.join`, not with the malformed-content `ValueError`. Second, a sequence
containing only Nodes can still raise the malformed-content error, when a
child Node recursively contains a non-Node. -/
theorem c3_claim_counterexample :
    render (UIComponent.mk (PyData.list
        [PyElem.comp (UIComponent.mk (PyData.scalar (PyScalar.nonStr "int" "42"))
            (some "span") Option.none),
          PyElem.other "str"]) (some "div") Option.none)
      = .error (RenderError.joinTypeError "int")
    ∧ render (UIComponent.mk (PyData.list
        [PyElem.comp (UIComponent.mk (PyData.list [PyElem.other "str"])
            (some "span") Option.none)]) (some "div") Option.none)
      = .error (RenderError.malformed "str") :=
  ⟨rfl, rfl⟩

/-- C3 amended: for every Node whose content sequence contains a non-Node
element, `render()` fails and produces no output; when every Node child
preceding the first non-Node renders successfully, the failure is exactly
the malformed-content error carrying the offending element's observed type.
For a sequence containing only Nodes all of which render successfully, no
error is raised. -/
theorem c3_amended_malformed_content :
    (∀ (xs : List PyElem) (tag : Option String) (props : Option Properties),
      (∃ e ∈ xs, e.isComponent = false) →
      ∃ err, render (UIComponent.mk (PyData.list xs) tag props) = .error err)
    ∧ (∀ (pre : List PyElem) (tyName : String) (rest : List PyElem)
        (tag : Option String) (props : Option Properties),
      (∀ e ∈ pre, ∃ c s, e = PyElem.comp c ∧ render c = .ok s) →
      render (UIComponent.mk (PyData.list (pre ++ PyElem.other tyName :: rest)) tag props)
        = .error (RenderError.malformed tyName))
    ∧ (∀ (xs : List PyElem) (tag : Option String) (props : Option Properties),
      (∀ e ∈ xs, ∃ c s, e = PyElem.comp c ∧ render c = .ok s) →
      ∃ out, render (UIComponent.mk (PyData.list xs) tag props) = .ok out) := by
  refine ⟨fun xs tag props h => ?_, fun pre tyName rest tag props h => ?_,
    fun xs tag props h => ?_⟩
  · obtain ⟨err, herr⟩ := renderList_error_of_exists_other xs h
    exact ⟨err, by simp [render, renderData, herr]⟩
  · have herr := renderList_append_other pre tyName rest h
    simp [render, renderData, herr]
  · obtain ⟨out, hout⟩ := renderList_ok_of_all_components xs h
    exact ⟨"<" ++ pyTagStr tag ++ " " ++ renderedPropertiesSegment props
      ++ ">" ++ out ++ "</" ++ pyTagStr tag ++ ">", by simp [render, renderData, hout]⟩

/-- C3 amended, instantiated: the non-Node `"str"` makes rendering fail; with
a successfully rendering Node before it the error is the malformed-content
error carrying type `str`; and a sequence of one successfully rendering Node
renders without error. -/
theorem c3_amended_malformed_content_witness :
    (∃ err, render (UIComponent.mk (PyData.list [PyElem.other "str"])
      (some "div") Option.none) = .error err)
    ∧ render (UIComponent.mk (PyData.list
        [PyElem.comp (UIComponent.mk (PyData.scalar (PyScalar.pstr "hi"))
            (some "span") Option.none),
          PyElem.other "str"]) (some "div") Option.none)
      = .error (RenderError.malformed "str")
    ∧ (∃ out, render (UIComponent.mk (PyData.list
        [PyElem.comp (UIComponent.mk (PyData.scalar (PyScalar.pstr "hi"))
            (some "span") Option.none)]) (some "div") Option.none) = .ok out) := by
  have hpre : ∀ e ∈ [PyElem.comp (UIComponent.mk (PyData.scalar (PyScalar.pstr "hi"))
      (some "span") Option.none)],
      ∃ c s, e = PyElem.comp c ∧ render c = .ok s := by
    intro e he
    rw [List.mem_singleton] at he
    exact ⟨_, "<span >hi</span>", he, rfl⟩
  refine ⟨c3_amended_malformed_content.1 _ _ _
      ⟨PyElem.other "str", List.mem_singleton.mpr rfl, rfl⟩,
    c3_amended_malformed_content.2.1
      [PyElem.comp (UIComponent.mk (PyData.scalar (PyScalar.pstr "hi"))
        (some "span") Option.none)] "str" [] (some "div") Option.none hpre,
    c3_amended_malformed_content.2.2 _ _ _ hpre⟩

/-- C4: for every Node with an attribute map whose body renders, the rendered
element serializes the attributes as the space-separated `key=value` pairs in
insertion order, string values double-quoted and other values embedded via
their default string conversion unquoted (`specAttributeString` is written
from the spec's words; the non-empty case of the claim is the instance where
the map is a cons). -/
theorem c4_attribute_serialization :
    ∀ (data : PyData) (tag : Option String) (ps : Properties) (body : String),
      renderData data = .ok body →
      render (UIComponent.mk data tag (some ps)) =
        .ok ("<" ++ pyTagStr tag ++ " " ++ specAttributeString ps ++ ">"
          ++ body ++ "</" ++ pyTagStr tag ++ ">") := by
  intro data tag ps body h
  have hseg : renderedPropertiesSegment (some ps) = specAttributeString ps := by
    cases ps with
    | nil => rfl
    | cons kv rest =>
      simp [renderedPropertiesSegment, _render_properties_eq_spec]
  simp [render, h, hseg]

/-- C4, instantiated at a node with a string-valued and a non-string-valued
attribute. -/
theorem c4_attribute_serialization_witness :
    render (UIComponent.mk PyData.none (some "span")
        (some [("class", PValue.vstr "x"), ("n", PValue.vother "1")])) =
      .ok ("<" ++ pyTagStr (some "span") ++ " "
        ++ specAttributeString [("class", PValue.vstr "x"), ("n", PValue.vother "1")]
        ++ ">" ++ "" ++ "</" ++ pyTagStr (some "span") ++ ">") :=
  c4_attribute_serialization PyData.none (some "span")
    [("class", PValue.vstr "x"), ("n", PValue.vother "1")] "" rfl

/-- C5 counterexample: the claim states that every scalar content is embedded
via its string representation, but a non-string scalar (here an `int` whose
string representation is `42`) makes `render()` raise the `TypeError` of
`"".join` instead of producing `<span >42</span>`. -/
theorem c5_claim_counterexample :
    render (UIComponent.mk (PyData.scalar (PyScalar.nonStr "int" "42"))
        (some "span") Option.none)
      = .error (RenderError.joinTypeError "int")
    ∧ render (UIComponent.mk (PyData.scalar (PyScalar.nonStr "int" "42"))
        (some "span") Option.none)
      ≠ .ok "<span >42</span>" :=
  ⟨rfl, fun h => Except.noConfusion h⟩

/-- C5 amended: for every Node whose content is a string scalar, `render()`
embeds the string verbatim and unescaped between the opening and closing
tags; a non-string scalar instead makes `render()` fail with the `TypeError`
raised by `str.join` on a non-string item. -/
theorem c5_amended_scalar_content :
    (∀ (s : String) (tag : Option String) (props : Option Properties),
      render (UIComponent.mk (PyData.scalar (PyScalar.pstr s)) tag props) =
        .ok ("<" ++ pyTagStr tag ++ " " ++ renderedPropertiesSegment props
          ++ ">" ++ s ++ "</" ++ pyTagStr tag ++ ">"))
    ∧ (∀ (tyName conv : String) (tag : Option String) (props : Option Properties),
      render (UIComponent.mk (PyData.scalar (PyScalar.nonStr tyName conv)) tag props) =
        .error (RenderError.joinTypeError tyName)) :=
  ⟨fun s tag props => rfl, fun tyName conv tag props => rfl⟩

/-- C6: on a Document whose style render is not yet cached, render-styles
emits for each registered selector, in insertion order, the block
`selector{prop: value,\nprop: value}` — selector immediately followed by an
open brace, declarations separated by a comma then a newline, no trailing
semicolons — with the blocks joined by newlines (`specStylesheet` is written
from the spec's words); and the spec's example
`set-style(".a", {"color": "green"})` renders to `.a{color: green}`. -/
theorem c6_render_styles_format :
    (∀ app : UIApp, app.renderStylesCache = Option.none →
      (app._render_pregenerated_styles).1 = specStylesheet app._pregenerated_styles)
    ∧ ((UIApp.new.style ".a" [("color", PValue.vstr "green")])._render_pregenerated_styles).1
      = ".a\x7bcolor: green\x7d" := by
  constructor
  · intro app h
    simp [UIApp._render_pregenerated_styles, h, styles_pyJoin_eq_spec]
  · rfl

/-- C6, instantiated at a one-style document. -/
theorem c6_render_styles_format_witness :
    ((UIApp.new.style ".a" [("color", PValue.vstr "green")])._render_pregenerated_styles).1
      = specStylesheet (UIApp.new.style ".a"
          [("color", PValue.vstr "green")])._pregenerated_styles :=
  c6_render_styles_format.1 _ rfl

/-- C7: registering a style twice under the same selector replaces the prior
declaration map entirely (the stored map is the second one), and on a
Document whose style render is not yet cached, render-styles afterwards
agrees with a Document that only ever registered the second map. -/
theorem c7_set_style_overwrites :
    ∀ (app : UIApp) (selector : String) (p1 p2 : Properties),
      app.renderStylesCache = Option.none →
      dictLookup (((app.style selector p1).style selector p2)._pregenerated_styles)
          selector = some p2
      ∧ (((app.style selector p1).style selector p2)._render_pregenerated_styles).1
        = ((app.style selector p2)._render_pregenerated_styles).1 := by
  intro app selector p1 p2 h
  have hstyles : ((app.style selector p1).style selector p2)._pregenerated_styles
      = (app.style selector p2)._pregenerated_styles := by
    simp [UIApp.style, dictInsert_dictInsert_same]
  constructor
  · rw [hstyles]
    exact dictLookup_dictInsert_self _ _ _
  · have h1 : ((app.style selector p1).style selector p2).renderStylesCache
      = Option.none := h
    have h2 : (app.style selector p2).renderStylesCache = Option.none := h
    simp [UIApp._render_pregenerated_styles, h1, h2, hstyles]

/-- C7, instantiated at the spec's red/blue example. -/
theorem c7_set_style_overwrites_witness :
    dictLookup (((UIApp.new.style ".a" [("color", PValue.vstr "red")]).style ".a"
        [("color", PValue.vstr "blue")])._pregenerated_styles) ".a"
      = some [("color", PValue.vstr "blue")]
    ∧ (((UIApp.new.style ".a" [("color", PValue.vstr "red")]).style ".a"
        [("color", PValue.vstr "blue")])._render_pregenerated_styles).1
      = ((UIApp.new.style ".a" [("color", PValue.vstr "blue")])._render_pregenerated_styles).1 :=
  c7_set_style_overwrites UIApp.new ".a" [("color", PValue.vstr "red")]
    [("color", PValue.vstr "blue")] rfl

/-- C8: with no intervening mutation, a second call of render-styles returns
the same string as the first (the first call caches its result), and a second
call of render-body on the state left by a successful first call returns the
identical result (the cached one-element list). -/
theorem c8_render_idempotent_cached :
    ∀ app : UIApp,
      ((app._render_pregenerated_styles).2._render_pregenerated_styles).1
        = (app._render_pregenerated_styles).1
      ∧ (∀ (v : List String) (app1 : UIApp),
          app._render_components = .ok (v, app1) →
          app1._render_components = .ok (v, app1)) := by
  intro app
  constructor
  · cases h : app.renderStylesCache with
    | some v => simp [UIApp._render_pregenerated_styles, h]
    | none => simp [UIApp._render_pregenerated_styles, h]
  · intro v app1 h
    cases hc : app.renderComponentsCache with
    | some w =>
      simp only [UIApp._render_components, hc] at h
      obtain ⟨rfl, rfl⟩ := Prod.mk.injEq .. ▸ (Except.ok.injEq .. ▸ h)
      simp [UIApp._render_components, hc]
    | none =>
      simp only [UIApp._render_components, hc] at h
      cases hr : renderAllComponents app._components with
      | error e => simp [hr] at h
      | ok ss =>
        simp only [hr] at h
        obtain ⟨rfl, rfl⟩ := Prod.mk.injEq .. ▸ (Except.ok.injEq .. ▸ h)
        simp [UIApp._render_components]

/-- C8, instantiated at a fresh empty document. -/
theorem c8_render_idempotent_cached_witness :
    (⟨[], [], "Built with PyHTML!", some [""], Option.none⟩ : UIApp)._render_components
      = .ok ([""], ⟨[], [], "Built with PyHTML!", some [""], Option.none⟩) :=
  (c8_render_idempotent_cached UIApp.new).2 [""]
    ⟨[], [], "Built with PyHTML!", some [""], Option.none⟩ rfl

/-- C9: a named-tag convenience call given both an explicit attribute mapping
and keyword attributes registers a node whose attribute dict is the Python
union `kwargs | properties`; on that union the explicit mapping wins on every
key present in both, and a key present in only one source keeps that source's
value (the explicit mapping's keys must be unique, as they are in any Python
dict). -/
theorem c9_attribute_merge_precedence :
    ∀ (app : UIApp) (tag : String) (data : PyData) (kwargs p : Properties),
      (p.map Prod.fst).Nodup →
      (app._tag_shortcut tag data (some p) kwargs)._components
        = app._components
          ++ [UIComponent.mk data (some "span") (some (dictUnion kwargs p))]
      ∧ (∀ k v, dictLookup p k = some v → dictLookup (dictUnion kwargs p) k = some v)
      ∧ (∀ k, dictLookup p k = none →
          dictLookup (dictUnion kwargs p) k = dictLookup kwargs k) := by
  intro app tag data kwargs p hnd
  exact ⟨rfl, fun k v h => dictUnion_lookup_right kwargs p k v hnd h,
    fun k h => dictUnion_lookup_left kwargs p k h⟩

/-- C9, instantiated with a colliding key `b`, a kwargs-only key `a` and an
explicit-only key `c`. -/
theorem c9_attribute_merge_precedence_witness :
    (UIApp.new._tag_shortcut "div" PyData.none
        (some [("b", PValue.vstr "3"), ("c", PValue.vstr "4")])
        [("a", PValue.vstr "1"), ("b", PValue.vstr "2")])._components
      = UIApp.new._components
        ++ [UIComponent.mk PyData.none (some "span")
          (some (dictUnion [("a", PValue.vstr "1"), ("b", PValue.vstr "2")]
            [("b", PValue.vstr "3"), ("c", PValue.vstr "4")]))]
    ∧ (∀ k v, dictLookup [("b", PValue.vstr "3"), ("c", PValue.vstr "4")] k = some v →
        dictLookup (dictUnion [("a", PValue.vstr "1"), ("b", PValue.vstr "2")]
          [("b", PValue.vstr "3"), ("c", PValue.vstr "4")]) k = some v)
    ∧ (∀ k, dictLookup [("b", PValue.vstr "3"), ("c", PValue.vstr "4")] k = none →
        dictLookup (dictUnion [("a", PValue.vstr "1"), ("b", PValue.vstr "2")]
          [("b", PValue.vstr "3"), ("c", PValue.vstr "4")]) k
          = dictLookup [("a", PValue.vstr "1"), ("b", PValue.vstr "2")] k) :=
  c9_attribute_merge_precedence UIApp.new "div" PyData.none
    [("a", PValue.vstr "1"), ("b", PValue.vstr "2")]
    [("b", PValue.vstr "3"), ("c", PValue.vstr "4")] (by decide)

/-- C10: a Node constructed without a tag renders without failing whenever its
content renders: the element's tag name is the literal string `None`, so the
output is `<None ...>...</None>` — the missing tag is never rejected and the
node is never rendered as bare text. -/
theorem c10_none_tag_renders_none_element :
    ∀ (data : PyData) (props : Option Properties) (body : String),
      renderData data = .ok body →
      render (UIComponent.mk data Option.none props) =
        .ok ("<None " ++ renderedPropertiesSegment props ++ ">" ++ body ++ "</None>") := by
  intro data props body h
  simp [render, h, pyTagStr, String.append_assoc]

/-- C10, instantiated at a tagless text leaf. -/
theorem c10_none_tag_renders_none_element_witness :
    render (UIComponent.mk (PyData.scalar (PyScalar.pstr "hi")) Option.none Option.none) =
      .ok ("<None " ++ renderedPropertiesSegment Option.none ++ ">" ++ "hi" ++ "</None>") :=
  c10_none_tag_renders_none_element (PyData.scalar (PyScalar.pstr "hi"))
    Option.none "hi" rfl

end PyHtml
